import Mathlib

/-!
Verification of the rust-game-server core: a shallow embedding of the
entity model, vector math, the simulation authority's Connect /
Disconnect / Command handlers (src/game/mod.rs), and the connection
session's frame and liveness handling (src/server.rs).

Modelling conventions:
- f32 arithmetic is idealized as exact real arithmetic (the spec states
  its numeric properties up to floating tolerance).
- Uuid is modelled as Nat; each call to Uuid::new_v4() is modelled as a
  nondeterministically chosen fresh identifier passed in as a parameter.
- std HashMap is modelled as a function Nat -> Option value; insert
  overwrites, remove deletes.
- A handler that would panic (out-of-bounds Vec index) is modelled as
  returning none; normal completion returns some of the new state.
- Instant is modelled as a Nat count of elapsed seconds; duration_since
  saturates at zero exactly like Nat subtraction.
-/

namespace GameServer

/-- Entity / session identifier, modelling uuid::Uuid. -/
abbrev Uuid := Nat

/-- Outbound channel handle, modelling Recipient of MyMessage; the
authority never inspects it, only stores and removes it. -/
abbrev Channel := Nat

/-- Functional model of std HashMap with Uuid keys. -/
def HMap (α : Type) := Uuid → Option α

/-- HashMap::insert - overwrites any previous value at the key. -/
def HMap.insert {α : Type} (m : HMap α) (k : Uuid) (v : α) : HMap α :=
  fun i => if i = k then some v else m i

/-- HashMap::remove. -/
def HMap.remove {α : Type} (m : HMap α) (k : Uuid) : HMap α :=
  fun i => if i = k then none else m i

/-- HashMap::new - the empty map. -/
def HMap.empty {α : Type} : HMap α := fun _ => none

/-- 2D vector, modelling geometry/vector.rs Vector2f with f32 idealized
as real numbers. -/
structure Vector2f where
  x : ℝ
  y : ℝ

/-- Vector2f subtraction (impl Sub for Vector2f). -/
def Vector2f.sub (a b : Vector2f) : Vector2f :=
  ⟨a.x - b.x, a.y - b.y⟩

/-- Vector2f scalar multiplication (impl Mul of f32 for Vector2f). -/
def Vector2f.smul (a : Vector2f) (s : ℝ) : Vector2f :=
  ⟨a.x * s, a.y * s⟩

/-- Vector2f::from_angle: (cos angle, sin angle). -/
noncomputable def Vector2f.from_angle (angle : ℝ) : Vector2f :=
  ⟨Real.cos angle, Real.sin angle⟩

/-- Vector2f::angle: self.y.atan2(self.x). f32::atan2 is modelled by the
argument of the complex number x + y*i, which agrees with atan2(y, x)
on all quadrants and at the origin (both map (0,0) to 0). -/
noncomputable def Vector2f.angle (v : Vector2f) : ℝ :=
  Complex.arg ⟨v.x, v.y⟩

/-- Spec-side definition (not in the source): the Euclidean magnitude of
a vector, used to state the projectile-speed property. -/
noncomputable def Vector2f.norm (v : Vector2f) : ℝ :=
  Real.sqrt (v.x * v.x + v.y * v.y)

/-- Spec-side definition (not in the source): the normalized vector, used
to state the projectile-direction property. -/
noncomputable def Vector2f.normalize (v : Vector2f) : Vector2f :=
  ⟨v.x / v.norm, v.y / v.norm⟩

/-- Bullet entity (game/mod.rs). -/
structure Bullet where
  id : Uuid
  owner : Option Uuid
  position : Vector2f
  velocity : Vector2f

/-- Bullet::new; the internal Uuid::new_v4() call is modelled by the
fresh parameter. -/
def Bullet.new (fresh : Uuid) (owner : Option Uuid)
    (position velocity : Vector2f) : Bullet :=
  ⟨fresh, owner, position, velocity⟩

/-- impl Entity for Bullet: update adds velocity * delta to position,
unconditionally, touching nothing else. -/
def Bullet.update (b : Bullet) (delta : ℝ) : Bullet :=
  { b with position := ⟨b.position.x + b.velocity.x * delta,
                        b.position.y + b.velocity.y * delta⟩ }

/-- Player entity (game/mod.rs). -/
structure Player where
  id : Uuid
  health : ℝ
  position : Vector2f
  velocity : Vector2f

/-- Player::new: health 100, velocity (0,0); the random spawn position
fastrand::f32()*800 x fastrand::f32()*600 is modelled by the px, py
parameters. -/
def Player.new (id : Uuid) (px py : ℝ) : Player :=
  ⟨id, 100, ⟨px, py⟩, ⟨0, 0⟩⟩

/-- impl Entity for Player: position += velocity * delta, then each axis
independently clamps to [0, 800] (x) resp. [0, 600] (y) and scales the
corresponding velocity component by -0.8 when the incremented coordinate
left the range. -/
noncomputable def Player.update (p : Player) (delta : ℝ) : Player :=
  let px := p.position.x + p.velocity.x * delta
  let py := p.position.y + p.velocity.y * delta
  let xs : ℝ × ℝ :=
    if px < 0 then (0, p.velocity.x * (-0.8))
    else if px > 800 then (800, p.velocity.x * (-0.8))
    else (px, p.velocity.x)
  let ys : ℝ × ℝ :=
    if py < 0 then (0, p.velocity.y * (-0.8))
    else if py > 600 then (600, p.velocity.y * (-0.8))
    else (py, p.velocity.y)
  { p with position := ⟨xs.1, ys.1⟩, velocity := ⟨xs.2, ys.2⟩ }

/-- The closed entity variant set of dyn Entity: Player or Bullet. -/
inductive Entity where
  | player (p : Player)
  | bullet (b : Bullet)

/-- Dynamic dispatch of Entity::update over the two variants. -/
noncomputable def Entity.update : Entity → ℝ → Entity
  | .player p, d => .player (p.update d)
  | .bullet b, d => .bullet (b.update d)

/-- GameState (game/mod.rs): timestamp plus entity map. -/
structure GameState where
  ts : Int
  entities : HMap Entity

/-- The authority actor state: world state behind the lock, plus the
session registry. start_time drives only the tick's delta computation
and is not needed by the handlers modelled here. -/
structure Game where
  state : GameState
  sessions : HMap Channel

/-- Game / GameState Default: empty entity map, empty registry; the
chrono wall-clock timestamp is modelled as 0. -/
def Game.init : Game :=
  { state := { ts := 0, entities := HMap.empty }, sessions := HMap.empty }

/-- Models impl Handler of Connect for Game: stores the outbound channel
and inserts a fresh Player under the same id. px, py model the random
spawn coordinates drawn inside Player::new. -/
def Game.connect (g : Game) (id : Uuid) (addr : Channel) (px py : ℝ) : Game :=
  { state := { g.state with
        entities := g.state.entities.insert id (.player (Player.new id px py)) },
    sessions := g.sessions.insert id addr }

/-- Models impl Handler of Disconnect for Game: removes the session's
channel and its entity. -/
def Game.disconnect (g : Game) (id : Uuid) : Game :=
  { state := { g.state with entities := g.state.entities.remove id },
    sessions := g.sessions.remove id }

/-- Models impl Handler of WrappedConversation of Vec f32 for Game
(game/mod.rs lines 225-278). sid is the sending session's id, kind and
data the envelope fields. freshKey and freshBulletId model the two
Uuid::new_v4() calls of the fire branch (map key, then Bullet::new's
internal id). The result is none exactly when the handler panics: the
source indexes data[0] and data[1] on a Vec, which faults when the
vector is too short; every non-faulting path returns some. -/
noncomputable def Game.command (g : Game) (sid : Uuid) (kind : String)
    (data : List ℝ) (freshKey freshBulletId : Uuid) : Option Game :=
  if kind = "move" then
    match g.state.entities sid with
    | none => some g
    | some (.bullet _) => some g
    | some (.player p) =>
      match data.get? 0, data.get? 1 with
      | some d0, some d1 =>
        some { g with state := { g.state with
          entities := g.state.entities.insert sid (.player { p with
            velocity := ⟨p.velocity.x + d0, p.velocity.y + d1⟩ }) } }
      | _, _ => none
  else if kind = "fire" then
    match g.state.entities sid with
    | none => some g
    | some (.bullet _) => some g
    | some (.player p) =>
      match data.get? 0, data.get? 1 with
      | some d0, some d1 =>
        let click_pos : Vector2f := ⟨d0, d1⟩
        let player_pos := p.position
        let angle := (click_pos.sub player_pos).angle
        let velocity := Vector2f.from_angle angle
        some { g with state := { g.state with
          entities := g.state.entities.insert freshKey
            (.bullet (Bullet.new freshBulletId (some sid) player_pos
              (velocity.smul 300))) } }
      | _, _ => none
  else
    some g

/-- Sequential application of a list of move commands (no intervening
ticks); the fresh-uuid parameters are irrelevant to the move branch. -/
noncomputable def Game.runMoves (g : Game) (sid : Uuid) :
    List (ℝ × ℝ) → Option Game
  | [] => some g
  | ab :: rest =>
    match g.command sid ("move") [ab.1, ab.2] 0 0 with
    | none => none
    | some g1 => g1.runMoves sid rest

/-- States of the authority reachable from the initial empty state by
Connect, Disconnect and (non-faulting) Command handler invocations.
Connect ids, channels and spawn positions are arbitrary; the fire
branch's generated map key is modelled as fresh (absent from the entity
map), the idealization of Uuid::new_v4 collision-freeness. -/
inductive Game.Reachable : Game → Prop where
  | init : Game.Reachable Game.init
  | connect (g : Game) (id : Uuid) (addr : Channel) (px py : ℝ) :
      Game.Reachable g → Game.Reachable (g.connect id addr px py)
  | disconnect (g : Game) (id : Uuid) :
      Game.Reachable g → Game.Reachable (g.disconnect id)
  | command (g : Game) (sid : Uuid) (kind : String) (data : List ℝ)
      (freshKey freshBulletId : Uuid) (g1 : Game) :
      Game.Reachable g →
      g.state.entities freshKey = none →
      g.command sid kind data freshKey freshBulletId = some g1 →
      Game.Reachable g1

/-- The 1:1 correspondence between Player entities and registered
sessions: an id holds a Player in world state iff it holds a channel in
the registry. -/
def PlayersMatchSessions (g : Game) : Prop :=
  ∀ id : Uuid, (∃ p, g.state.entities id = some (.player p)) ↔
    (∃ c, g.sessions id = some c)

/-- Session actor state (server.rs): connection id and last-activity
instant bz, in seconds. -/
structure Session where
  id : Uuid
  bz : Nat

/-- Transport frames relevant to the session's stream handler. The text
constructor carries the serde_json parse result of the frame body: some
(kind, data) on success, none on parse failure. other covers binary,
continuation and error frames (the catch-all arm). -/
inductive Frame where
  | ping
  | pong
  | close
  | text (parsed : Option (String × List ℝ))
  | other

/-- What the stream handler emitted while processing one frame. -/
inductive SessionAction where
  | pong
  | closeStop
  | forward (sid : Uuid) (kind : String) (data : List ℝ)
  | logDiscard
  | ignore

/-- Models impl StreamHandler for Session (server.rs lines 66-94): the
returned session records any refresh of bz to the current instant, the
action what the handler did. Ping and pong refresh bz; close stops the
session; text forwards the parsed envelope (or logs and discards). -/
def Session.handleFrame (s : Session) (now : Nat) : Frame → Session × SessionAction
  | .ping => ({ s with bz := now }, .pong)
  | .pong => ({ s with bz := now }, .ignore)
  | .close => (s, .closeStop)
  | .text parsed =>
    match parsed with
    | some (kind, data) => (s, .forward s.id kind data)
    | none => (s, .logDiscard)
  | .other => (s, .ignore)

/-- Period of the recurring liveness check, Duration::from_secs(5). -/
def heartbeatInterval : Nat := 5

/-- Liveness timeout, Duration::from_secs(10). -/
def clientTimeout : Nat := 10

/-- Outcome of one liveness check: stop the session (transition to
Closing) or issue a ping probe. -/
inductive LivenessAction where
  | stopClosing
  | ping

/-- Models the run_interval closure of Session::bz (server.rs lines
23-32): if strictly more than clientTimeout seconds elapsed since the
last activity, stop; otherwise ping. -/
def Session.livenessCheck (s : Session) (now : Nat) : LivenessAction :=
  if clientTimeout < now - s.bz then .stopClosing else .ping

/-! Helper lemmas about the Command handler's branches. -/

/-- A command from a session id with no entity in world state is dropped:
the handler returns the state unchanged, whatever the kind and data. -/
lemma command_absent (g : Game) (sid : Uuid) (kind : String) (data : List ℝ)
    (k b : Uuid) (h : g.state.entities sid = none) :
    g.command sid kind data k b = some g := by
  unfold Game.command
  split_ifs
  · rw [h]
  · rw [h]
  · rfl

/-- A command from a session id whose entity is a Bullet fails the
downcast and is dropped. -/
lemma command_bullet (g : Game) (sid : Uuid) (kind : String) (data : List ℝ)
    (k b : Uuid) (bl : Bullet) (h : g.state.entities sid = some (.bullet bl)) :
    g.command sid kind data k b = some g := by
  unfold Game.command
  split_ifs
  · rw [h]
  · rw [h]
  · rfl

/-- The move branch on a Player with at least two data elements adds the
impulse to the velocity in place. -/
lemma command_move_player (g : Game) (sid : Uuid) (p : Player) (d0 d1 : ℝ)
    (tail : List ℝ) (k b : Uuid)
    (hp : g.state.entities sid = some (.player p)) :
    g.command sid ("move") (d0 :: d1 :: tail) k b =
      some { g with state := { g.state with
        entities := g.state.entities.insert sid (.player { p with
          velocity := ⟨p.velocity.x + d0, p.velocity.y + d1⟩ }) } } := by
  unfold Game.command
  rw [if_pos rfl, hp]
  rfl

/-- The fire branch on a Player with at least two data elements inserts
one Bullet at the fresh key. -/
lemma command_fire_player (g : Game) (sid : Uuid) (p : Player) (d0 d1 : ℝ)
    (tail : List ℝ) (k b : Uuid)
    (hp : g.state.entities sid = some (.player p)) :
    g.command sid ("fire") (d0 :: d1 :: tail) k b =
      some { g with state := { g.state with
        entities := g.state.entities.insert k
          (.bullet (Bullet.new b (some sid) p.position
            ((Vector2f.from_angle
              ((Vector2f.sub ⟨d0, d1⟩ p.position).angle)).smul 300))) } } := by
  unfold Game.command
  rw [if_neg (by decide), if_pos rfl, hp]
  rfl

/-- Any kind other than move and fire is discarded silently. -/
lemma command_other_kind (g : Game) (sid : Uuid) (kind : String)
    (data : List ℝ) (k b : Uuid)
    (h1 : kind ≠ "move") (h2 : kind ≠ "fire") :
    g.command sid kind data k b = some g := by
  unfold Game.command
  rw [if_neg h1, if_neg h2]

/-! Claim theorems. -/

/-- C1: the claim states the Command handler never faults, even on data
vectors with fewer than 2 elements. The code violates this: with a
Player registered for session id 0, a move envelope with an empty data
vector makes the handler index data[0] out of bounds and panic (modelled
as the handler returning none). -/
theorem C1_short_data_faults :
    (Game.init.connect 0 0 100 100).command 0 ("move") [] 1 2 = none := by
  rfl

/-- C2 counterexample: the claim states every inbound frame, a text
frame included, refreshes the session's last-activity time. In the code
a text frame leaves bz untouched: a session with bz = 0 receiving a text
frame at instant 7 still has bz = 0, not 7. -/
theorem C2_text_frame_does_not_refresh :
    ((Session.mk 0 0).handleFrame 7 (.text (some ("move", [1, 2])))).1.bz ≠ 7 := by
  decide

/-- C2 amended: ping and pong frames refresh last-activity to the
current instant, a text frame leaves it unchanged, and the recurring
liveness check transitions to Closing exactly when strictly more than
clientTimeout (10) seconds have elapsed since last activity, issuing a
ping on every check that does not trip the timeout. -/
theorem C2_liveness_behavior (s : Session) (now : Nat)
    (parsed : Option (String × List ℝ)) :
    (s.handleFrame now .ping).1.bz = now ∧
    (s.handleFrame now .pong).1.bz = now ∧
    (s.handleFrame now (.text parsed)).1.bz = s.bz ∧
    (s.livenessCheck now = .stopClosing ↔ clientTimeout < now - s.bz) ∧
    (s.livenessCheck now = .ping ↔ ¬ clientTimeout < now - s.bz) := by
  refine ⟨rfl, rfl, ?_, ?_, ?_⟩
  · rcases parsed with _ | ⟨kind, data⟩ <;> rfl
  · unfold Session.livenessCheck
    split_ifs with h <;> simp [h]
  · unfold Session.livenessCheck
    split_ifs with h <;> simp [h]

/-- C8: Disconnect removes the id's channel from the registry and its
entity from world state; when the id is absent from both, the handler
leaves the whole Game unchanged. -/
theorem C8_disconnect_removes_and_noop (g : Game) (id : Uuid) :
    (g.disconnect id).sessions id = none ∧
    (g.disconnect id).state.entities id = none ∧
    (g.sessions id = none → g.state.entities id = none →
      g.disconnect id = g) := by
  refine ⟨?_, ?_, ?_⟩
  · simp [Game.disconnect, HMap.remove]
  · simp [Game.disconnect, HMap.remove]
  · intro hs he
    obtain ⟨⟨ts, entities⟩, sessions⟩ := g
    simp only [Game.disconnect]
    congr 1
    · congr 1
      funext i
      by_cases hi : i = id
      · subst hi
        simp only [HMap.remove, if_pos rfl]
        exact he.symm
      · simp [HMap.remove, hi]
    · funext i
      by_cases hi : i = id
      · subst hi
        simp only [HMap.remove, if_pos rfl]
        exact hs.symm
      · simp [HMap.remove, hi]

/-- C8 witness: disconnecting an id absent from the empty initial state
is a no-op. -/
theorem C8_disconnect_witness : Game.init.disconnect 3 = Game.init :=
  (C8_disconnect_removes_and_noop Game.init 3).2.2 rfl rfl

/-- C4: with no intervening ticks, move impulses accumulate additively
on the connected Player's velocity: after impulses (a1,b1)..(an,bn) the
velocity is the initial velocity plus the componentwise sums. -/
theorem C4_move_accumulates (g : Game) (sid : Uuid) (p : Player)
    (L : List (ℝ × ℝ))
    (hp : g.state.entities sid = some (.player p)) :
    ∃ g1, g.runMoves sid L = some g1 ∧
      g1.state.entities sid = some (.player { p with velocity :=
        ⟨p.velocity.x + (L.map Prod.fst).sum,
         p.velocity.y + (L.map Prod.snd).sum⟩ }) := by
  induction L generalizing g p with
  | nil =>
    refine ⟨g, rfl, ?_⟩
    rw [hp]
    simp
  | cons ab rest ih =>
    have hstep := command_move_player g sid p ab.1 ab.2 [] 0 0 hp
    obtain ⟨g2, hrun, hlook⟩ := ih
      { g with state := { g.state with
          entities := g.state.entities.insert sid (.player { p with
            velocity := ⟨p.velocity.x + ab.1, p.velocity.y + ab.2⟩ }) } }
      { p with velocity := ⟨p.velocity.x + ab.1, p.velocity.y + ab.2⟩ }
      (by simp [HMap.insert])
    refine ⟨g2, ?_, ?_⟩
    · unfold Game.runMoves
      rw [hstep]
      exact hrun
    · rw [hlook]
      simp [add_assoc]

/-- C4 witness: two concrete impulses on a freshly connected player sum
componentwise. -/
theorem C4_move_accumulates_witness :
    ∃ g1, (Game.init.connect 0 0 0 0).runMoves 0 [(1, 2), (3, 4)] = some g1 ∧
      g1.state.entities 0 = some (.player { Player.new 0 0 0 with velocity :=
        ⟨(Player.new 0 0 0).velocity.x + ([(1, 2), (3, 4)].map Prod.fst).sum,
         (Player.new 0 0 0).velocity.y +
           ([((1 : ℝ), (2 : ℝ)), (3, 4)].map Prod.snd).sum⟩ }) :=
  C4_move_accumulates (Game.init.connect 0 0 0 0) 0 (Player.new 0 0 0)
    [(1, 2), (3, 4)] rfl

/-- C5: Player::update adds velocity times delta to position and, per
axis independently, clamps a coordinate that left [0, 800] (x) resp.
[0, 600] (y) to the boundary while scaling that velocity component by
exactly -0.8; Bullet::update adds velocity times delta unconditionally
and never touches velocity. -/
theorem C5_update_physics (p : Player) (b : Bullet) (delta : ℝ) :
    ((p.update delta).position.x =
      (if p.position.x + p.velocity.x * delta < 0 then 0
       else if p.position.x + p.velocity.x * delta > 800 then 800
       else p.position.x + p.velocity.x * delta)) ∧
    ((p.update delta).velocity.x =
      (if p.position.x + p.velocity.x * delta < 0 ∨
          p.position.x + p.velocity.x * delta > 800
       then p.velocity.x * (-0.8) else p.velocity.x)) ∧
    ((p.update delta).position.y =
      (if p.position.y + p.velocity.y * delta < 0 then 0
       else if p.position.y + p.velocity.y * delta > 600 then 600
       else p.position.y + p.velocity.y * delta)) ∧
    ((p.update delta).velocity.y =
      (if p.position.y + p.velocity.y * delta < 0 ∨
          p.position.y + p.velocity.y * delta > 600
       then p.velocity.y * (-0.8) else p.velocity.y)) ∧
    (b.update delta).position.x = b.position.x + b.velocity.x * delta ∧
    (b.update delta).position.y = b.position.y + b.velocity.y * delta ∧
    (b.update delta).velocity = b.velocity := by
  refine ⟨?_, ?_, ?_, ?_, rfl, rfl, rfl⟩ <;>
    · simp only [Player.update]
      split_ifs <;> simp_all <;>
        (rcases ‹_ ∨ _› with h | h <;> linarith)

/-- C6 counterexample state: a Player already left of the arena. -/
def stuckPlayer : Player :=
  { id := 0, health := 100, position := ⟨-1, 0⟩, velocity := ⟨0, 0⟩ }

/-- C6 counterexample: the claim quantifies over every state, but a
Player whose position is already out of bounds is clamped even by a
zero-duration update: stuckPlayer at x = -1 moves to x = 0 under
update 0. -/
theorem C6_zero_delta_moves_stuck_player :
    (stuckPlayer.update 0).position.x ≠ stuckPlayer.position.x := by
  norm_num [stuckPlayer, Player.update]

/-- C6 amended: for every Bullet in any state, and for every Player
whose position lies inside the arena [0,800] x [0,600] (as every
spawned and ticked Player's does), update with delta = 0 changes
neither position nor velocity. -/
theorem C6_zero_delta_identity (p : Player) (b : Bullet)
    (hx0 : 0 ≤ p.position.x) (hx1 : p.position.x ≤ 800)
    (hy0 : 0 ≤ p.position.y) (hy1 : p.position.y ≤ 600) :
    p.update 0 = p ∧ b.update 0 = b := by
  constructor
  · obtain ⟨i, hh, ⟨px, py⟩, ⟨vx, vy⟩⟩ := p
    simp only [Player.update, mul_zero, add_zero] at *
    rw [if_neg (not_lt.mpr hx0), if_neg (not_lt.mpr hx1),
      if_neg (not_lt.mpr hy0), if_neg (not_lt.mpr hy1)]
  · obtain ⟨i, o, ⟨px, py⟩, ⟨vx, vy⟩⟩ := b
    simp [Bullet.update]

/-- C6 witness: concrete in-bounds player and bullet are both fixed by a
zero-duration update. -/
theorem C6_zero_delta_identity_witness :
    (Player.new 0 5 6).update 0 = Player.new 0 5 6 ∧
    (Bullet.new 1 none ⟨2, 3⟩ ⟨4, 5⟩).update 0 =
      Bullet.new 1 none ⟨2, 3⟩ ⟨4, 5⟩ :=
  C6_zero_delta_identity (Player.new 0 5 6) (Bullet.new 1 none ⟨2, 3⟩ ⟨4, 5⟩)
    (by norm_num [Player.new]) (by norm_num [Player.new])
    (by norm_num [Player.new]) (by norm_num [Player.new])

/-- A unit vector built from any angle and scaled by 300 has magnitude
exactly 300. -/
lemma norm_from_angle_smul (θ : ℝ) :
    ((Vector2f.from_angle θ).smul 300).norm = 300 := by
  unfold Vector2f.norm Vector2f.from_angle Vector2f.smul
  have h : Real.cos θ * 300 * (Real.cos θ * 300) +
      Real.sin θ * 300 * (Real.sin θ * 300) = 300 ^ 2 := by
    have hcs := Real.cos_sq_add_sin_sq θ
    nlinarith [hcs]
  dsimp only
  rw [h, Real.sqrt_sq (by norm_num)]

/-- On a nonzero vector, the unit vector recovered from the angle equals
the normalized vector: cos and sin of atan2(y, x) are x resp. y divided
by the magnitude. -/
lemma from_angle_angle (v : Vector2f) (hv : ¬(v.x = 0 ∧ v.y = 0)) :
    Vector2f.from_angle v.angle = v.normalize := by
  have hz : (⟨v.x, v.y⟩ : ℂ) ≠ 0 := by
    intro h
    exact hv ⟨by simpa using congrArg Complex.re h,
      by simpa using congrArg Complex.im h⟩
  have hc := Complex.cos_arg hz
  have hs := Complex.sin_arg (⟨v.x, v.y⟩ : ℂ)
  rw [Complex.abs_apply, Complex.normSq_mk] at hc hs
  unfold Vector2f.from_angle Vector2f.angle Vector2f.normalize Vector2f.norm
  rw [hc, hs]

/-- C3: a fire command from a session whose entity is a Player inserts
exactly one new Bullet (owner the firing player's id, position the
player's position, speed 300, direction the normalized vector from the
player's position to the click point, all other map entries untouched);
a fire command from a session id absent from world state inserts
nothing. -/
theorem C3_fire_spawns_bullet :
    (∀ (g : Game) (sid : Uuid) (p : Player) (cx cy : ℝ) (k b : Uuid),
      g.state.entities sid = some (.player p) →
      Vector2f.sub ⟨cx, cy⟩ p.position ≠ ⟨0, 0⟩ →
      ∃ g1, g.command sid ("fire") [cx, cy] k b = some g1 ∧
        (∃ blt, g1.state.entities k = some (.bullet blt) ∧
          blt.owner = some sid ∧
          blt.position = p.position ∧
          blt.velocity.norm = 300 ∧
          blt.velocity =
            (Vector2f.sub ⟨cx, cy⟩ p.position).normalize.smul 300) ∧
        (∀ i, i ≠ k → g1.state.entities i = g.state.entities i) ∧
        g1.sessions = g.sessions) ∧
    (∀ (g : Game) (sid : Uuid) (cx cy : ℝ) (k b : Uuid),
      g.state.entities sid = none →
      g.command sid ("fire") [cx, cy] k b = some g) := by
  constructor
  · intro g sid p cx cy k b hp hd
    have hstep := command_fire_player g sid p cx cy [] k b hp
    refine ⟨_, hstep, ?_, ?_, rfl⟩
    · refine ⟨Bullet.new b (some sid) p.position
        ((Vector2f.from_angle
          ((Vector2f.sub ⟨cx, cy⟩ p.position).angle)).smul 300),
        ?_, rfl, rfl, norm_from_angle_smul _, ?_⟩
      · simp [HMap.insert]
      · have hv : ¬((Vector2f.sub ⟨cx, cy⟩ p.position).x = 0 ∧
            (Vector2f.sub ⟨cx, cy⟩ p.position).y = 0) := by
          intro h
          apply hd
          calc Vector2f.sub ⟨cx, cy⟩ p.position
              = ⟨(Vector2f.sub ⟨cx, cy⟩ p.position).x,
                 (Vector2f.sub ⟨cx, cy⟩ p.position).y⟩ := rfl
            _ = ⟨0, 0⟩ := by rw [h.1, h.2]
        show (Vector2f.from_angle
          ((Vector2f.sub ⟨cx, cy⟩ p.position).angle)).smul 300 = _
        rw [from_angle_angle _ hv]
    · intro i hi
      simp [HMap.insert, hi]
  · intro g sid cx cy k b h
    exact command_absent g sid _ _ k b h

/-- C3 witness: a player connected at (0,0) firing at (3,4) spawns a
bullet with the stated owner, position, speed and direction. -/
theorem C3_fire_spawns_bullet_witness :
    ∃ g1, (Game.init.connect 0 0 0 0).command 0 ("fire") [3, 4] 1 2 = some g1 ∧
      (∃ blt, g1.state.entities 1 = some (.bullet blt) ∧
        blt.owner = some 0 ∧
        blt.position = (Player.new 0 0 0).position ∧
        blt.velocity.norm = 300 ∧
        blt.velocity =
          (Vector2f.sub ⟨3, 4⟩ (Player.new 0 0 0).position).normalize.smul 300) ∧
      (∀ i, i ≠ 1 →
        g1.state.entities i = (Game.init.connect 0 0 0 0).state.entities i) ∧
      g1.sessions = (Game.init.connect 0 0 0 0).sessions :=
  C3_fire_spawns_bullet.1 (Game.init.connect 0 0 0 0) 0 (Player.new 0 0 0)
    3 4 1 2 rfl
    (by
      intro h
      have hx := congrArg Vector2f.x h
      simp [Vector2f.sub, Player.new] at hx)

/-- C9: the map key of a fired Bullet and the Bullet's internal id field
come from two separate fresh-identifier draws (the two Uuid::new_v4
calls, modelled as distinct fresh values k and b): the stored Bullet's
id field is the second draw and therefore differs from its map key. -/
theorem C9_bullet_key_distinct_from_id (g : Game) (sid : Uuid) (p : Player)
    (cx cy : ℝ) (k b : Uuid)
    (hp : g.state.entities sid = some (.player p)) (hk : k ≠ b) :
    ∃ g1, g.command sid ("fire") [cx, cy] k b = some g1 ∧
      ∃ blt, g1.state.entities k = some (.bullet blt) ∧
        blt.id = b ∧ blt.id ≠ k := by
  have hstep := command_fire_player g sid p cx cy [] k b hp
  refine ⟨_, hstep, Bullet.new b (some sid) p.position
    ((Vector2f.from_angle
      ((Vector2f.sub ⟨cx, cy⟩ p.position).angle)).smul 300), ?_, rfl, ?_⟩
  · simp [HMap.insert]
  · exact hk.symm

/-- C9 witness: concrete fire with distinct fresh draws 1 and 2. -/
theorem C9_bullet_key_distinct_from_id_witness :
    ∃ g1, (Game.init.connect 0 0 0 0).command 0 ("fire") [3, 4] 1 2 = some g1 ∧
      ∃ blt, g1.state.entities 1 = some (.bullet blt) ∧
        blt.id = 2 ∧ blt.id ≠ 1 :=
  C9_bullet_key_distinct_from_id (Game.init.connect 0 0 0 0) 0
    (Player.new 0 0 0) 3 4 1 2 rfl (by decide)

/-- C10: a fire command whose click point coincides with the firing
player's position still spawns a Bullet, and since atan2(0,0) = 0 its
velocity is exactly (300, 0). -/
theorem C10_fire_at_own_position (g : Game) (sid : Uuid) (p : Player)
    (k b : Uuid) (hp : g.state.entities sid = some (.player p)) :
    ∃ g1, g.command sid ("fire") [p.position.x, p.position.y] k b = some g1 ∧
      ∃ blt, g1.state.entities k = some (.bullet blt) ∧
        blt.velocity = ⟨300, 0⟩ := by
  have hstep := command_fire_player g sid p p.position.x p.position.y [] k b hp
  refine ⟨_, hstep, Bullet.new b (some sid) p.position
    ((Vector2f.from_angle
      ((Vector2f.sub ⟨p.position.x, p.position.y⟩ p.position).angle)).smul 300),
    ?_, ?_⟩
  · simp [HMap.insert]
  · have hzero : Vector2f.sub ⟨p.position.x, p.position.y⟩ p.position =
        ⟨0, 0⟩ := by
      simp [Vector2f.sub]
    have harg : (Vector2f.mk 0 0).angle = 0 := by
      unfold Vector2f.angle
      have h0 : (⟨(0 : ℝ), (0 : ℝ)⟩ : ℂ) = 0 := by
        apply Complex.ext <;> simp
      rw [h0, Complex.arg_zero]
    show (Vector2f.from_angle
      ((Vector2f.sub ⟨p.position.x, p.position.y⟩ p.position).angle)).smul 300 =
      Vector2f.mk 300 0
    rw [hzero, harg]
    unfold Vector2f.from_angle Vector2f.smul
    rw [Real.cos_zero, Real.sin_zero]
    norm_num [Vector2f.mk.injEq]

/-- C10 witness: a player at (5, 6) firing at exactly (5, 6) spawns a
bullet with velocity (300, 0). -/
theorem C10_fire_at_own_position_witness :
    ∃ g1, (Game.init.connect 0 0 5 6).command 0
        ("fire") [(Player.new 0 5 6).position.x, (Player.new 0 5 6).position.y]
        1 2 = some g1 ∧
      ∃ blt, g1.state.entities 1 = some (.bullet blt) ∧
        blt.velocity = ⟨300, 0⟩ :=
  C10_fire_at_own_position (Game.init.connect 0 0 5 6) 0 (Player.new 0 5 6)
    1 2 rfl

/-- Case analysis on a non-faulting Command invocation: it either leaves
the Game unchanged (unknown kind, unknown session, or Bullet target),
updates one Player's velocity in place (move), or inserts one Bullet at
the fresh key (fire); the session registry is never touched. -/
lemma command_cases (g : Game) (sid : Uuid) (kind : String) (data : List ℝ)
    (k b : Uuid) (g1 : Game)
    (h : g.command sid kind data k b = some g1) :
    g1 = g ∨
    (∃ p d0 d1, g.state.entities sid = some (.player p) ∧
      g1.sessions = g.sessions ∧
      g1.state.entities = g.state.entities.insert sid (.player { p with
        velocity := ⟨p.velocity.x + d0, p.velocity.y + d1⟩ })) ∨
    (∃ p blt, g.state.entities sid = some (.player p) ∧
      g1.sessions = g.sessions ∧
      g1.state.entities = g.state.entities.insert k (.bullet blt)) := by
  unfold Game.command at h
  split_ifs at h with hmove hfire
  · cases hsid : g.state.entities sid with
    | none =>
      rw [hsid] at h
      exact Or.inl (Option.some.inj h).symm
    | some e =>
      cases e with
      | bullet bl =>
        rw [hsid] at h
        exact Or.inl (Option.some.inj h).symm
      | player p =>
        rw [hsid] at h
        cases hd0 : data.get? 0 with
        | none =>
          rw [hd0] at h
          simp at h
        | some d0 =>
          cases hd1 : data.get? 1 with
          | none =>
            rw [hd0, hd1] at h
            simp at h
          | some d1 =>
            rw [hd0, hd1] at h
            have hg1 := (Option.some.inj h).symm
            subst hg1
            exact Or.inr (Or.inl ⟨p, d0, d1, rfl, rfl, rfl⟩)
  · cases hsid : g.state.entities sid with
    | none =>
      rw [hsid] at h
      exact Or.inl (Option.some.inj h).symm
    | some e =>
      cases e with
      | bullet bl =>
        rw [hsid] at h
        exact Or.inl (Option.some.inj h).symm
      | player p =>
        rw [hsid] at h
        cases hd0 : data.get? 0 with
        | none =>
          rw [hd0] at h
          simp at h
        | some d0 =>
          cases hd1 : data.get? 1 with
          | none =>
            rw [hd0, hd1] at h
            simp at h
          | some d1 =>
            rw [hd0, hd1] at h
            have hg1 := (Option.some.inj h).symm
            subst hg1
            exact Or.inr (Or.inr ⟨p, _, rfl, rfl, rfl⟩)
  · exact Or.inl (Option.some.inj h).symm

/-- C7: in every state reachable from the initial empty state by
Connect, Disconnect and Command handler invocations, the set of
Player-entity identifiers in world state equals the set of identifiers
registered in the session registry. -/
theorem C7_players_sessions_correspond (g : Game) (h : Game.Reachable g) :
    PlayersMatchSessions g := by
  induction h with
  | init =>
    intro i
    simp [Game.init, HMap.empty]
  | connect g0 id addr px py hr ih =>
    intro i
    show (∃ p, HMap.insert g0.state.entities id
        (.player (Player.new id px py)) i = some (.player p)) ↔
      (∃ c, HMap.insert g0.sessions id addr i = some c)
    unfold HMap.insert
    by_cases hi : i = id
    · simp [hi]
    · simp only [if_neg hi]
      exact ih i
  | disconnect g0 id hr ih =>
    intro i
    show (∃ p, HMap.remove g0.state.entities id i = some (.player p)) ↔
      (∃ c, HMap.remove g0.sessions id i = some c)
    unfold HMap.remove
    by_cases hi : i = id
    · simp [hi]
    · simp only [if_neg hi]
      exact ih i
  | command g0 sid kind data k b g1 hr hfresh hcmd ih =>
    rcases command_cases g0 sid kind data k b g1 hcmd with
      heq | ⟨p, d0, d1, hsid, hsess, hent⟩ | ⟨p, blt, hsid, hsess, hent⟩
    · subst heq
      exact ih
    · intro i
      rw [PlayersMatchSessions] at ih
      constructor
      · intro _
        rw [hsess]
        exact (ih i).mp (by
          by_cases hi : i = sid
          · subst hi
            exact ⟨p, hsid⟩
          · obtain ⟨p1, hp1⟩ := ‹∃ p1, g1.state.entities i = some (.player p1)›
            rw [hent] at hp1
            unfold HMap.insert at hp1
            rw [if_neg hi] at hp1
            exact ⟨p1, hp1⟩)
      · intro hc
        rw [hent]
        unfold HMap.insert
        by_cases hi : i = sid
        · subst hi
          exact ⟨_, by rw [if_pos rfl]⟩
        · rw [if_neg hi]
          exact (ih i).mpr (by rw [hsess] at hc; exact hc)
    · intro i
      rw [hsess, hent]
      unfold HMap.insert
      by_cases hi : i = k
      · subst hi
        rw [if_pos rfl]
        constructor
        · rintro ⟨p1, hp1⟩
          exact absurd (Option.some.inj hp1) (by simp)
        · intro hc
          exfalso
          obtain ⟨p1, hp1⟩ := (ih i).mpr hc
          rw [hfresh] at hp1
          exact Option.noConfusion hp1
      · rw [if_neg hi]
        exact ih i

/-- C7 witness: the state after one Connect from the initial state
satisfies the correspondence. -/
theorem C7_players_sessions_correspond_witness :
    PlayersMatchSessions (Game.init.connect 0 5 1 2) :=
  C7_players_sessions_correspond _
    (Game.Reachable.connect Game.init 0 5 1 2 Game.Reachable.init)

end GameServer
